import Mathlib

/-!
Verification of the validated-record component of `src/main.py`.

The script declares one pydantic model,

    class User(BaseModel):
        name: str = Field(min_length=1, max_length=50)
        age: int = Field(gt=0, le=120)
        email: EmailStr

and constructs an instance inside `main`.  We embed the schema as a list
of field specifications and embed pydantic v2's model validation as a
pure function over an input mapping: every field of the schema is
examined in declaration order, violations (missing required field, type
mismatch, failed constraint) are accumulated without short-circuiting,
and either a fully populated instance or the full violation list is
returned.  Extra input keys are ignored (pydantic's default
`extra="ignore"` behaviour) and instances are mutable after construction
(pydantic's default `frozen=False`).
-/

/-- Raw candidate values supplied by a caller: Python strings, ints and
floats as used by the script (floats modelled as rationals). -/
inductive Value where
  | str : String → Value
  | int : Int → Value
  | float : Rat → Value
deriving DecidableEq

/-- Declared semantic type of a field (`str`, `int`, `float` annotations). -/
inductive FieldType where
  | string : FieldType
  | integer : FieldType
  | floatingPoint : FieldType
deriving DecidableEq

/-- Constraints attached to a field via `Field(...)` keyword arguments or
the `EmailStr` annotation. -/
inductive Constraint where
  | minLength : Nat → Constraint
  | maxLength : Nat → Constraint
  | gt : Int → Constraint
  | le : Int → Constraint
  | emailFormat : Constraint
deriving DecidableEq

/-- Violations reported by validation, following the taxonomy the
component exposes: missing required field, type mismatch, constraint
violation. -/
inductive Violation where
  | missingRequiredField : String → Violation
  | typeMismatch : String → FieldType → Value → Violation
  | constraintViolation : String → Constraint → Value → Violation
deriving DecidableEq

/-- The field a violation is about. -/
def violField : Violation → String
  | .missingRequiredField f => f
  | .typeMismatch f _ _ => f
  | .constraintViolation f _ _ => f

/-- Specification of one model field: name, declared type, required
flag, default value (for optional fields) and constraint list. -/
structure FieldSpec where
  name : String
  type : FieldType
  required : Bool
  default : Option Value
  constraints : List Constraint
deriving DecidableEq

/-- Splitting a character list on a separator character. -/
def splitOnChar (c : Char) : List Char → List (List Char)
  | [] => [[]]
  | ch :: rest =>
      if ch = c then [] :: splitOnChar c rest
      else
        match splitOnChar c rest with
        | [] => [[ch]]
        | grp :: groups => (ch :: grp) :: groups

/-- Simplified email-format check standing in for pydantic's `EmailStr`
validator (the third-party email-validator library): exactly one `@`,
a non-empty local part, and a domain made of non-empty dot-separated
labels with at least one dot. -/
def isValidEmail (s : String) : Bool :=
  match splitOnChar '@' s.toList with
  | [localPart, domain] =>
      localPart.length > 0 &&
      (splitOnChar '.' domain).length ≥ 2 &&
      (splitOnChar '.' domain).all (fun lab => lab.length > 0)
  | _ => false

/-- Type check of a candidate value against the declared type (`int` is
accepted where `float` is declared, as pydantic coerces it; the lax
numeric-string coercions are not exercised by this script). -/
def typeCheck : FieldType → Value → Bool
  | .string, .str _ => true
  | .integer, .int _ => true
  | .floatingPoint, .float _ => true
  | .floatingPoint, .int _ => true
  | _, _ => false

/-- Evaluation of a single constraint on a type-checked value. -/
def checkConstraint : Constraint → Value → Bool
  | .minLength k, .str s => decide (k ≤ s.length)
  | .maxLength k, .str s => decide (s.length ≤ k)
  | .gt b, .int v => decide (b < v)
  | .le b, .int v => decide (v ≤ b)
  | .emailFormat, .str s => isValidEmail s
  | _, _ => true

/-- Violations produced for a field whose value is present in the input:
a type mismatch, or one constraint violation per failed constraint in
declaration order. -/
def checkPresent (spec : FieldSpec) (v : Value) : List Violation :=
  if typeCheck spec.type v then
    (spec.constraints.filter (fun c => !checkConstraint c v)).map
      (fun c => Violation.constraintViolation spec.name c v)
  else
    [Violation.typeMismatch spec.name spec.type v]

/-- Lookup of a key in an input mapping (first binding wins, as in a
Python dict built from keyword arguments). -/
def lookupField : List (String × Value) → String → Option Value
  | [], _ => none
  | (k, v) :: rest, key => if k = key then some v else lookupField rest key

/-- An input mapping from field name to raw candidate value. -/
abbrev InputMap := List (String × Value)

/-- Violations contributed by one field specification: a missing-field
violation when a required field is absent, the present-value checks
otherwise, nothing for an absent optional field. -/
def fieldViolations (spec : FieldSpec) (m : InputMap) : List Violation :=
  match lookupField m spec.name with
  | some v => checkPresent spec v
  | none => if spec.required then [Violation.missingRequiredField spec.name] else []

/-- All violations of an input against a schema, accumulated over every
field in declaration order with no short-circuiting. -/
def validateFields : List FieldSpec → InputMap → List Violation
  | [], _ => []
  | f :: rest, m => fieldViolations f m ++ validateFields rest m

/-- The instance produced on success: one entry per schema field, the
supplied value if present, the declared default otherwise. -/
def buildInstance : List FieldSpec → InputMap → List (String × Value)
  | [], _ => []
  | f :: rest, m =>
      (match lookupField m f.name with
       | some v => [(f.name, v)]
       | none =>
         match f.default with
         | some d => [(f.name, d)]
         | none => []) ++ buildInstance rest m

/-- Outcome of validation: a record instance, or the full violation list. -/
inductive VResult where
  | ok : List (String × Value) → VResult
  | error : List Violation → VResult
deriving DecidableEq

/-- Model validation (pydantic `BaseModel.__init__`): check every field,
and either return a fully populated instance or fail with every
accumulated violation. -/
def validate (fields : List FieldSpec) (m : InputMap) : VResult :=
  let errs := validateFields fields m
  if errs = [] then VResult.ok (buildInstance fields m) else VResult.error errs

/-- The `name` field of `User` (`src/main.py` line 5):
`name: str = Field(min_length=1, max_length=50)`. -/
def nameSpec : FieldSpec :=
  { name := "name", type := .string, required := true, default := none,
    constraints := [.minLength 1, .maxLength 50] }

/-- The `age` field of `User` (`src/main.py` line 6):
`age: int = Field(gt=0, le=120)`. -/
def ageSpec : FieldSpec :=
  { name := "age", type := .integer, required := true, default := none,
    constraints := [.gt 0, .le 120] }

/-- The `email` field of `User` (`src/main.py` line 7): `email: EmailStr`,
embedded as a string field with an email-format constraint. -/
def emailSpec : FieldSpec :=
  { name := "email", type := .string, required := true, default := none,
    constraints := [.emailFormat] }

/-- The `User` schema of `src/main.py` (lines 4-7); all three fields are
required and have no defaults. -/
def userFields : List FieldSpec := [nameSpec, ageSpec, emailSpec]

/-- Modelled from the spec: the Config Record of a sibling script absent
from `src/` — `api_key` (string, required), `model` (string, default
"gpt-4"), `max_tokens` (integer, default 1000), `temperature`
(floating-point, default 0.7). -/
def configFields : List FieldSpec :=
  [ { name := "api_key", type := .string, required := true, default := none,
      constraints := [] },
    { name := "model", type := .string, required := false,
      default := some (.str "gpt-4"), constraints := [] },
    { name := "max_tokens", type := .integer, required := false,
      default := some (.int 1000), constraints := [] },
    { name := "temperature", type := .floatingPoint, required := false,
      default := some (.float (mkRat 7 10)), constraints := [] } ]

/-- Field assignment on a constructed instance, modelling pydantic v2's
default `__setattr__` semantics with `frozen=False` and
`validate_assignment=False`: the stored value is replaced in place with
no re-validation. -/
def setAttr : List (String × Value) → String → Value → List (String × Value)
  | [], _, _ => []
  | (k, v) :: rest, key, nv =>
      if k = key then (k, nv) :: rest else (k, v) :: setAttr rest key nv

/-- Occurrence count of a violation in a violation list. -/
def countViol (x : Violation) : List Violation → Nat
  | [] => 0
  | v :: rest => (if v = x then 1 else 0) + countViol x rest

/-- Whether validation succeeded. -/
def VResult.isOk : VResult → Bool
  | .ok _ => true
  | .error _ => false

/-- The input mapping constructed by `main` (`src/main.py` line 12). -/
def aliceInput : InputMap :=
  [("name", .str "Alice"), ("email", .str "alice@example.com"), ("age", .int 30)]

/-- The record instance that validation of `aliceInput` produces. -/
def aliceInst : List (String × Value) :=
  [("name", .str "Alice"), ("age", .int 30), ("email", .str "alice@example.com")]

section Lemmas

/-- Every violation produced for a present value is about that field. -/
theorem mem_checkPresent_field {spec : FieldSpec} {v : Value} {viol : Violation}
    (h : viol ∈ checkPresent spec v) : violField viol = spec.name := by
  unfold checkPresent at h
  by_cases ht : typeCheck spec.type v
  · rw [if_pos ht] at h
    obtain ⟨c, _, rfl⟩ := List.mem_map.mp h
    rfl
  · rw [if_neg ht] at h
    rw [List.mem_singleton] at h
    subst h
    rfl

/-- A present value never yields a missing-field violation. -/
theorem missing_not_mem_checkPresent {spec : FieldSpec} {v : Value} {x : String} :
    Violation.missingRequiredField x ∉ checkPresent spec v := by
  intro h
  unfold checkPresent at h
  by_cases ht : typeCheck spec.type v
  · rw [if_pos ht] at h
    obtain ⟨c, _, hc⟩ := List.mem_map.mp h
    cases hc
  · rw [if_neg ht] at h
    rw [List.mem_singleton] at h
    cases h

/-- Every violation a field specification contributes is about that field. -/
theorem mem_fieldViolations_field {spec : FieldSpec} {m : InputMap} {viol : Violation}
    (h : viol ∈ fieldViolations spec m) : violField viol = spec.name := by
  unfold fieldViolations at h
  cases hl : lookupField m spec.name with
  | none =>
      rw [hl] at h
      by_cases hr : spec.required
      · rw [if_pos hr] at h
        rw [List.mem_singleton] at h
        subst h
        rfl
      · rw [if_neg hr] at h
        cases h
  | some v =>
      rw [hl] at h
      exact mem_checkPresent_field h

theorem countViol_append (x : Violation) (l₁ l₂ : List Violation) :
    countViol x (l₁ ++ l₂) = countViol x l₁ + countViol x l₂ := by
  induction l₁ with
  | nil => simp [countViol]
  | cons v rest ih => simp [countViol, ih, Nat.add_assoc]

theorem countViol_eq_zero {x : Violation} {l : List Violation}
    (h : ∀ v ∈ l, v ≠ x) : countViol x l = 0 := by
  induction l with
  | nil => rfl
  | cons v rest ih =>
      have hv : v ≠ x := h v (List.mem_cons_self v rest)
      have hrest : ∀ w ∈ rest, w ≠ x := fun w hw => h w (List.mem_cons_of_mem v hw)
      simp [countViol, hv, ih hrest]

/-- A required field contributes exactly one missing-field violation for
itself when absent, and none when present. -/
theorem countViol_missing_self {spec : FieldSpec} (hreq : spec.required = true)
    (m : InputMap) :
    countViol (Violation.missingRequiredField spec.name) (fieldViolations spec m) =
      if lookupField m spec.name = none then 1 else 0 := by
  unfold fieldViolations
  cases hl : lookupField m spec.name with
  | none => simp [hreq, countViol]
  | some v =>
      simp only [reduceCtorEq, if_false]
      exact countViol_eq_zero fun w hw hx => missing_not_mem_checkPresent (hx ▸ hw)

/-- A field never contributes a missing-field violation for another field. -/
theorem countViol_missing_other {spec : FieldSpec} {x : String}
    (hx : spec.name ≠ x) (m : InputMap) :
    countViol (Violation.missingRequiredField x) (fieldViolations spec m) = 0 := by
  apply countViol_eq_zero
  intro v hv hvx
  subst hvx
  exact hx (mem_fieldViolations_field hv).symm

/-- An empty present-value check means the value is well typed and
satisfies every constraint. -/
theorem checkPresent_eq_nil {spec : FieldSpec} {v : Value}
    (h : checkPresent spec v = []) :
    typeCheck spec.type v = true ∧ ∀ c ∈ spec.constraints, checkConstraint c v = true := by
  unfold checkPresent at h
  by_cases ht : typeCheck spec.type v
  · rw [if_pos ht] at h
    refine ⟨ht, fun c hc => ?_⟩
    have hf := List.filter_eq_nil_iff.mp (List.map_eq_nil_iff.mp h) c hc
    simpa using hf
  · rw [if_neg ht] at h
    cases h

/-- A required field with no violations has a present value passing all
its checks. -/
theorem fieldViolations_nil_required {spec : FieldSpec} {m : InputMap}
    (hreq : spec.required = true) (h : fieldViolations spec m = []) :
    ∃ v, lookupField m spec.name = some v ∧ checkPresent spec v = [] := by
  unfold fieldViolations at h
  cases hl : lookupField m spec.name with
  | none => rw [hl, hreq] at h; cases h
  | some v => rw [hl] at h; exact ⟨v, rfl, h⟩

/-- Unfolding of the User schema's violation list into its three fields. -/
theorem validateFields_user (m : InputMap) :
    validateFields userFields m =
      fieldViolations nameSpec m ++
        (fieldViolations ageSpec m ++ (fieldViolations emailSpec m ++ [])) := rfl

end Lemmas

/-- C1: for the input `{name: "Alice", email: "alice@example.com", age: 30}`,
validation against the User record succeeds and returns an instance whose
field values are exactly name="Alice", email="alice@example.com", age=30 —
no field altered, no field added. -/
theorem user_alice_valid :
    validate userFields
      [("name", Value.str "Alice"), ("email", Value.str "alice@example.com"),
       ("age", Value.int 30)] =
    VResult.ok
      [("name", Value.str "Alice"), ("age", Value.int 30),
       ("email", Value.str "alice@example.com")] := by decide

/-- C2: for any User-record input whose name and email are valid, age = 0
fails (the lower bound is exclusive), age = 120 succeeds (the upper bound
is inclusive), and age = 121 fails. -/
theorem age_boundaries (n e : String)
    (hn1 : 1 ≤ n.length) (hn2 : n.length ≤ 50) (he : isValidEmail e = true) :
    (validate userFields
      [("name", Value.str n), ("age", Value.int 0), ("email", Value.str e)]).isOk = false ∧
    (validate userFields
      [("name", Value.str n), ("age", Value.int 120), ("email", Value.str e)]).isOk = true ∧
    (validate userFields
      [("name", Value.str n), ("age", Value.int 121), ("email", Value.str e)]).isOk = false := by
  refine ⟨?_, ?_, ?_⟩ <;>
    simp [validate, validateFields, fieldViolations, lookupField, checkPresent,
      userFields, nameSpec, ageSpec, emailSpec, typeCheck, checkConstraint,
      VResult.isOk, hn1, hn2, he]

theorem age_boundaries_witness :
    (1 ≤ "Alice".length ∧ "Alice".length ≤ 50 ∧ isValidEmail "alice@example.com" = true) ∧
    ((validate userFields
      [("name", Value.str "Alice"), ("age", Value.int 0),
       ("email", Value.str "alice@example.com")]).isOk = false ∧
     (validate userFields
      [("name", Value.str "Alice"), ("age", Value.int 120),
       ("email", Value.str "alice@example.com")]).isOk = true ∧
     (validate userFields
      [("name", Value.str "Alice"), ("age", Value.int 121),
       ("email", Value.str "alice@example.com")]).isOk = false) :=
  ⟨⟨by decide, by decide, by decide⟩,
   age_boundaries "Alice" "alice@example.com" (by decide) (by decide) (by decide)⟩

/-- C3: for any User-record input whose age and email are valid, a name of
length 0 fails, a name of length 50 succeeds, and a name of length 51
fails. -/
theorem name_length_boundaries (n₀ n₅ n₆ e : String) (a : Int)
    (h₀ : n₀.length = 0) (h₅ : n₅.length = 50) (h₆ : n₆.length = 51)
    (ha1 : 0 < a) (ha2 : a ≤ 120) (he : isValidEmail e = true) :
    (validate userFields
      [("name", Value.str n₀), ("age", Value.int a), ("email", Value.str e)]).isOk = false ∧
    (validate userFields
      [("name", Value.str n₅), ("age", Value.int a), ("email", Value.str e)]).isOk = true ∧
    (validate userFields
      [("name", Value.str n₆), ("age", Value.int a), ("email", Value.str e)]).isOk = false := by
  refine ⟨?_, ?_, ?_⟩ <;>
    simp [validate, validateFields, fieldViolations, lookupField, checkPresent,
      userFields, nameSpec, ageSpec, emailSpec, typeCheck, checkConstraint,
      VResult.isOk, h₀, h₅, h₆, ha1, ha2, he]

theorem name_length_boundaries_witness :
    ("".length = 0 ∧
     "aaaaaaaaaaaaaaaaaaaaaaaaaaaaaaaaaaaaaaaaaaaaaaaaaa".length = 50 ∧
     "aaaaaaaaaaaaaaaaaaaaaaaaaaaaaaaaaaaaaaaaaaaaaaaaaaa".length = 51 ∧
     (0 : Int) < 30 ∧ (30 : Int) ≤ 120 ∧ isValidEmail "alice@example.com" = true) ∧
    ((validate userFields
      [("name", Value.str ""), ("age", Value.int 30),
       ("email", Value.str "alice@example.com")]).isOk = false ∧
     (validate userFields
      [("name", Value.str "aaaaaaaaaaaaaaaaaaaaaaaaaaaaaaaaaaaaaaaaaaaaaaaaaa"),
       ("age", Value.int 30), ("email", Value.str "alice@example.com")]).isOk = true ∧
     (validate userFields
      [("name", Value.str "aaaaaaaaaaaaaaaaaaaaaaaaaaaaaaaaaaaaaaaaaaaaaaaaaaa"),
       ("age", Value.int 30), ("email", Value.str "alice@example.com")]).isOk = false) :=
  ⟨⟨by decide, by decide, by decide, by decide, by decide, by decide⟩,
   name_length_boundaries "" "aaaaaaaaaaaaaaaaaaaaaaaaaaaaaaaaaaaaaaaaaaaaaaaaaa"
     "aaaaaaaaaaaaaaaaaaaaaaaaaaaaaaaaaaaaaaaaaaaaaaaaaaa" "alice@example.com" 30
     (by decide) (by decide) (by decide) (by decide) (by decide) (by decide)⟩

/-- C4: for the input `{name: "Alice", email: "not-an-email", age: 30}`,
validation fails and the failure carries exactly one violation: a
constraint violation on the email field for the email-format constraint. -/
theorem user_bad_email :
    validate userFields
      [("name", Value.str "Alice"), ("email", Value.str "not-an-email"),
       ("age", Value.int 30)] =
    VResult.error
      [Violation.constraintViolation "email" Constraint.emailFormat
        (Value.str "not-an-email")] := by decide

/-- C7: validation is deterministic and side-effect free — validating the
same input mapping twice against the User record produces the same
outcome, and on success the two instances have identical field values. -/
theorem validate_deterministic (m : InputMap) :
    validate userFields m = validate userFields m ∧
    ∀ i₁ i₂, validate userFields m = VResult.ok i₁ →
      validate userFields m = VResult.ok i₂ → i₁ = i₂ := by
  refine ⟨rfl, fun i₁ i₂ h₁ h₂ => ?_⟩
  rw [h₁] at h₂
  exact VResult.ok.inj h₂

theorem validate_deterministic_witness :
    validate userFields aliceInput = validate userFields aliceInput ∧
    aliceInst = aliceInst :=
  ⟨(validate_deterministic aliceInput).1,
   (validate_deterministic aliceInput).2 aliceInst aliceInst (by decide) (by decide)⟩

/-- C8 counterexample: the claim that no operation can change a field
value of a validated instance is false on the code — `User` leaves
pydantic's default `frozen=False`, so field assignment on the instance
produced for Alice yields a different instance. -/
theorem instance_mutation_counterexample :
    validate userFields aliceInput = VResult.ok aliceInst ∧
    setAttr aliceInst "age" (Value.int 999) ≠ aliceInst := by decide

/-- C8 (amended): Record Instances are mutable after construction — the
model does not enable pydantic's frozen configuration, so assigning to a
field of a validated instance replaces the stored value (with no
re-validation). -/
theorem instance_mutable :
    lookupField aliceInst "age" = some (Value.int 30) ∧
    lookupField (setAttr aliceInst "age" (Value.int 999)) "age" =
      some (Value.int 999) := by decide

/-- C9: validating `{api_key: "sk-abc123"}` against the Config record
succeeds, applying the declared defaults for every omitted optional
field, and returns `{api_key: "sk-abc123", model: "gpt-4",
max_tokens: 1000, temperature: 0.7}`. -/
theorem config_defaults :
    validate configFields [("api_key", Value.str "sk-abc123")] =
    VResult.ok
      [("api_key", Value.str "sk-abc123"), ("model", Value.str "gpt-4"),
       ("max_tokens", Value.int 1000), ("temperature", Value.float (mkRat 7 10))] := by
  decide

/-- C10: an input supplying valid name, age and email values together with
keys that are not fields of the User record validates successfully (the
unknown keys are silently ignored) and the resulting instance contains
exactly the three declared fields. -/
theorem extra_keys_ignored (m : InputMap) (n e : String) (a : Int)
    (hname : lookupField m "name" = some (Value.str n))
    (hage : lookupField m "age" = some (Value.int a))
    (hemail : lookupField m "email" = some (Value.str e))
    (hn1 : 1 ≤ n.length) (hn2 : n.length ≤ 50)
    (ha1 : 0 < a) (ha2 : a ≤ 120) (he : isValidEmail e = true)
    (hextra : ∃ kv ∈ m, kv.1 ∉ ["name", "age", "email"]) :
    validate userFields m =
      VResult.ok [("name", Value.str n), ("age", Value.int a), ("email", Value.str e)] := by
  simp [validate, validateFields, fieldViolations, buildInstance, userFields,
    nameSpec, ageSpec, emailSpec, hname, hage, hemail, checkPresent, typeCheck,
    checkConstraint, hn1, hn2, ha1, ha2, he]

theorem extra_keys_ignored_witness :
    validate userFields
      [("name", Value.str "Alice"), ("age", Value.int 30),
       ("email", Value.str "alice@example.com"), ("nickname", Value.str "Al")] =
    VResult.ok
      [("name", Value.str "Alice"), ("age", Value.int 30),
       ("email", Value.str "alice@example.com")] :=
  extra_keys_ignored
    [("name", Value.str "Alice"), ("age", Value.int 30),
     ("email", Value.str "alice@example.com"), ("nickname", Value.str "Al")]
    "Alice" "alice@example.com" 30 (by decide) (by decide) (by decide) (by decide)
    (by decide) (by decide) (by decide) (by decide)
    ⟨("nickname", Value.str "Al"), by decide, by decide⟩

/-- C5: for every input in which one or more required fields of the User
record are absent, validation fails, the violation list contains exactly
one missing-field entry per absent required field, and missing-field
detection does not short-circuit: every violation of any present field
still appears in the same failure. -/
theorem validate_missing_required (m : InputMap)
    (h : ∃ f ∈ userFields, lookupField m f.name = none) :
    ∃ errs, validate userFields m = VResult.error errs ∧
      (∀ f ∈ userFields,
        countViol (Violation.missingRequiredField f.name) errs =
          if lookupField m f.name = none then 1 else 0) ∧
      (∀ f ∈ userFields, ∀ v, lookupField m f.name = some v →
        ∀ viol ∈ checkPresent f v, viol ∈ errs) := by
  have hne : validateFields userFields m ≠ [] := by
    obtain ⟨f, hf, hnone⟩ := h
    have hmem : Violation.missingRequiredField f.name ∈ fieldViolations f m := by
      unfold fieldViolations
      rw [hnone]
      have hreq : f.required = true := by
        simp [userFields] at hf
        rcases hf with rfl | rfl | rfl <;> rfl
      rw [hreq]
      simp
    apply List.ne_nil_of_mem (a := Violation.missingRequiredField f.name)
    rw [validateFields_user]
    simp [userFields] at hf
    rcases hf with rfl | rfl | rfl
    · exact List.mem_append_left _ hmem
    · exact List.mem_append_right _ (List.mem_append_left _ hmem)
    · exact List.mem_append_right _ (List.mem_append_right _ (List.mem_append_left _ hmem))
  refine ⟨validateFields userFields m, ?_, ?_, ?_⟩
  · simp [validate, hne]
  · intro f hf
    rw [validateFields_user, countViol_append, countViol_append, countViol_append]
    simp [userFields] at hf
    rcases hf with rfl | rfl | rfl
    · rw [countViol_missing_self rfl,
        countViol_missing_other (by decide : ageSpec.name ≠ nameSpec.name),
        countViol_missing_other (by decide : emailSpec.name ≠ nameSpec.name)]
      simp [countViol]
    · rw [countViol_missing_self rfl,
        countViol_missing_other (by decide : nameSpec.name ≠ ageSpec.name),
        countViol_missing_other (by decide : emailSpec.name ≠ ageSpec.name)]
      simp [countViol]
    · rw [countViol_missing_self rfl,
        countViol_missing_other (by decide : nameSpec.name ≠ emailSpec.name),
        countViol_missing_other (by decide : ageSpec.name ≠ emailSpec.name)]
      simp [countViol]
  · intro f hf v hv viol hviol
    have hfv : viol ∈ fieldViolations f m := by
      unfold fieldViolations
      rw [hv]
      exact hviol
    rw [validateFields_user]
    simp [userFields] at hf
    rcases hf with rfl | rfl | rfl
    · exact List.mem_append_left _ hfv
    · exact List.mem_append_right _ (List.mem_append_left _ hfv)
    · exact List.mem_append_right _ (List.mem_append_right _ (List.mem_append_left _ hfv))

theorem validate_missing_required_witness :
    (∃ f ∈ userFields, lookupField [("age", Value.int 150)] f.name = none) ∧
    (∃ errs, validate userFields [("age", Value.int 150)] = VResult.error errs ∧
      (∀ f ∈ userFields,
        countViol (Violation.missingRequiredField f.name) errs =
          if lookupField [("age", Value.int 150)] f.name = none then 1 else 0) ∧
      (∀ f ∈ userFields, ∀ v, lookupField [("age", Value.int 150)] f.name = some v →
        ∀ viol ∈ checkPresent f v, viol ∈ errs)) :=
  ⟨by decide, validate_missing_required [("age", Value.int 150)] (by decide)⟩

/-- C6: validation is atomic — for every input mapping, either a fully
valid, fully typed instance is returned, holding a validated value for
every field of the User record, or no instance is returned and the
failure is non-empty and reports every violation found on every field. -/
theorem validate_atomic (m : InputMap) :
    (∃ inst, validate userFields m = VResult.ok inst ∧
      ∀ f ∈ userFields, ∃ v, lookupField inst f.name = some v ∧
        typeCheck f.type v = true ∧ ∀ c ∈ f.constraints, checkConstraint c v = true) ∨
    (∃ errs, validate userFields m = VResult.error errs ∧ errs ≠ [] ∧
      ∀ f ∈ userFields, ∀ viol ∈ fieldViolations f m, viol ∈ errs) := by
  by_cases hE : validateFields userFields m = []
  · left
    rw [validateFields_user] at hE
    have h1 : fieldViolations nameSpec m = [] := by
      rcases List.append_eq_nil.mp hE with ⟨h1, _⟩
      exact h1
    have h23 := (List.append_eq_nil.mp hE).2
    have h2 : fieldViolations ageSpec m = [] := (List.append_eq_nil.mp h23).1
    have h3 : fieldViolations emailSpec m = [] := by
      have := (List.append_eq_nil.mp h23).2
      exact (List.append_eq_nil.mp this).1
    obtain ⟨v1, hl1, hc1⟩ := fieldViolations_nil_required rfl h1
    obtain ⟨v2, hl2, hc2⟩ := fieldViolations_nil_required rfl h2
    obtain ⟨v3, hl3, hc3⟩ := fieldViolations_nil_required rfl h3
    have hbuild : buildInstance userFields m = [("name", v1), ("age", v2), ("email", v3)] := by
      simp [buildInstance, userFields, nameSpec, ageSpec, emailSpec] at hl1 hl2 hl3 ⊢
      simp [hl1, hl2, hl3]
    refine ⟨buildInstance userFields m, ?_, ?_⟩
    · simp [validate, validateFields_user, h1, h2, h3]
    · intro f hf
      simp [userFields] at hf
      rcases hf with rfl | rfl | rfl
      · exact ⟨v1, by simp [hbuild, lookupField, nameSpec],
          (checkPresent_eq_nil hc1).1, (checkPresent_eq_nil hc1).2⟩
      · exact ⟨v2, by simp [hbuild, lookupField, ageSpec],
          (checkPresent_eq_nil hc2).1, (checkPresent_eq_nil hc2).2⟩
      · exact ⟨v3, by simp [hbuild, lookupField, emailSpec],
          (checkPresent_eq_nil hc3).1, (checkPresent_eq_nil hc3).2⟩
  · right
    refine ⟨validateFields userFields m, by simp [validate, hE], hE, ?_⟩
    intro f hf viol hviol
    rw [validateFields_user]
    simp [userFields] at hf
    rcases hf with rfl | rfl | rfl
    · exact List.mem_append_left _ hviol
    · exact List.mem_append_right _ (List.mem_append_left _ hviol)
    · exact List.mem_append_right _ (List.mem_append_right _ (List.mem_append_left _ hviol))
